import Mathlib

/-!
Shallow embedding of the file-sync core of the repository
(`FileService`, `FileController`, `FeishuService`).

Modelling conventions:
* The filesystem's blob area (the managed media directory plus the temp
  staging directory) is a finite association list from paths to abstract
  byte contents (`Nat`).  `fs.rename` fails exactly when the source path
  is absent (ENOENT), the failure mode relevant to the store's contract.
* The durable JSON file `feishu_files.json` is modelled as
  `Option (List FileRecord)`: `JSON.parse ∘ JSON.stringify` is the
  identity on the record array, so serialization is elided; `none`
  means the file does not exist yet (first run).
* `fs.writeFile` may fail in the environment; the flag `diskWritable`
  says whether it succeeds.  `saveState` swallows the error either way,
  exactly as the source's try/catch does.
* Each mutating operation also returns the list of filesystem effects it
  attempted, in program order, so ordering claims can be stated.
* External collaborators (the Lark client) are represented by their
  outcomes (`FetchOutcome`) and by effects in a trace (`PipelineEffect`);
  `Date.now()` / timer times are explicit `Nat` parameters, and
  `crypto.randomUUID()` is an explicit key parameter.
-/

namespace PixelSync

/-- The `FileStatus` enum from `file.service.ts`. -/
inductive FileStatus
  | Pending
  | Completed
  | Failed
  | Expired
deriving DecidableEq

/-- The `FileRecord` interface from `file.service.ts`. -/
structure FileRecord where
  fileKey : String
  fileName : String
  status : FileStatus
  timestamp : Nat
deriving DecidableEq

abbrev Path := String

/-- The `path.join` restricted to one separator, as used by the service. -/
def pathJoin (dir file : String) : Path := dir ++ "/" ++ file

/-- The `FILE_MEDIA_DIR` (default configuration, relative to cwd). -/
def FILE_MEDIA_DIR : Path := "_data/file_media"

/-- The `TEMP_DIR` of `FeishuService` (relative to cwd). -/
def TEMP_DIR : Path := "temp_uploads"

/-- The blob area of the filesystem: path ↦ abstract content. -/
abbrev Blobs := List (Path × Nat)

def fsLookup (p : Path) : Blobs → Option Nat
  | [] => none
  | e :: rest => if e.1 = p then some e.2 else fsLookup p rest

/-- The `fs.unlink`, with the ENOENT case a no-op (the callers catch it). -/
def fsErase (p : Path) (l : Blobs) : Blobs := l.filter (fun e => e.1 != p)

/-- Writing `c` at `p` replaces whatever was there. -/
def fsWrite (p : Path) (c : Nat) (l : Blobs) : Blobs := (p, c) :: fsErase p l

/-- The `fs.rename src dst`: moves the bytes, failing iff `src` is absent. -/
def fsRename (src dst : Path) (l : Blobs) : Except String Blobs :=
  match fsLookup src l with
  | none => .error "ENOENT"
  | some c => .ok (fsWrite dst c (fsErase src l))

/-- The observable state of a `FileService` instance plus the durable
    artifacts it owns. -/
structure FileServiceState where
  /-- in-memory `this.files` array -/
  files : List FileRecord
  /-- contents of `FILE_DATA_FILE` (`none` = file absent) -/
  dataFile : Option (List FileRecord)
  /-- blob area (media dir + temp dir) -/
  media : Blobs
  /-- whether `fs.writeFile` on the data file succeeds -/
  diskWritable : Bool
deriving DecidableEq

/-- Filesystem effects attempted by a store operation, in program order. -/
inductive FsEffect
  | rename (src dst : Path)
  | writeData
  | unlink (p : Path)
deriving DecidableEq

/-- The `FileService.saveState`: rewrites the whole JSON file; a write
    failure is caught and logged, leaving the old file in place. -/
def saveState (σ : FileServiceState) : FileServiceState :=
  if σ.diskWritable then { σ with dataFile := some σ.files } else σ

/-- The `FileService.loadState`: replaces `this.files` with the parsed file
    contents; a read failure (ENOENT) leaves `this.files` untouched. -/
def loadState (σ : FileServiceState) : FileServiceState :=
  match σ.dataFile with
  | some recs => { σ with files := recs }
  | none => σ

/-- Result of `addFile`: new state, attempted fs effects, and how the
    returned promise settles (`.ok ()` = resolved, `.error` = rejected). -/
structure AddFileResult where
  state : FileServiceState
  trace : List FsEffect
  outcome : Except String Unit

/-- The `FileService.addFile sourceFilePath originalFileName`, with the
    generated `crypto.randomUUID()` and `Date.now()` explicit.
    On rename failure the catch block only logs: no record is pushed, no
    save happens, and the promise still resolves. -/
def addFile (σ : FileServiceState) (sourceFilePath : Path)
    (originalFileName : String) (localFileKey : String) (now : Nat) :
    AddFileResult :=
  let localFileName := if originalFileName = "" then localFileKey else originalFileName
  let destinationFilePath := pathJoin FILE_MEDIA_DIR localFileName
  let newRecord : FileRecord :=
    { fileKey := localFileKey, fileName := localFileName
      status := FileStatus.Pending, timestamp := now }
  match fsRename sourceFilePath destinationFilePath σ.media with
  | .error _ =>
      { state := σ, trace := [FsEffect.rename sourceFilePath destinationFilePath]
        outcome := .ok () }
  | .ok media' =>
      let σ₁ := saveState { σ with media := media', files := σ.files ++ [newRecord] }
      { state := σ₁
        trace := [FsEffect.rename sourceFilePath destinationFilePath, FsEffect.writeData]
        outcome := .ok () }

/-- The `FileService.getPendingFiles`: reloads from disk, then filters. -/
def getPendingFiles (σ : FileServiceState) :
    FileServiceState × List FileRecord :=
  let σ' := loadState σ
  (σ', σ'.files.filter (fun f => f.status == FileStatus.Pending))

/-- The `FileService.getFilePath`: pure in-memory scan; the path depends on
    the matched record's `fileName` only. -/
def getFilePath (σ : FileServiceState) (fileKey : String) : Option Path :=
  (σ.files.find? (fun f => f.fileKey == fileKey)).map
    (fun f => pathJoin FILE_MEDIA_DIR f.fileName)

/-- The in-place `file.status = status` on the first `find` match. -/
def setStatusFirst : List FileRecord → String → FileStatus → List FileRecord
  | [], _, _ => []
  | f :: rest, k, s =>
      if f.fileKey = k then { f with status := s } :: rest
      else f :: setStatusFirst rest k s

/-- Result of `updateFileStatus`: state, attempted fs effects, and the
    returned boolean. -/
structure UpdateStatusResult where
  state : FileServiceState
  trace : List FsEffect
  ok : Bool

/-- The `FileService.updateFileStatus fileKey status`: unknown key ⇒ `false`;
    otherwise set the status, save, and — for `Completed`/`Failed` —
    unlink the blob (unlink errors are caught and logged). -/
def updateFileStatus (σ : FileServiceState) (fileKey : String)
    (status : FileStatus) : UpdateStatusResult :=
  match σ.files.find? (fun f => f.fileKey == fileKey) with
  | none => { state := σ, trace := [], ok := false }
  | some _ =>
      let σ₁ := saveState { σ with files := setStatusFirst σ.files fileKey status }
      if status = FileStatus.Completed ∨ status = FileStatus.Failed then
        match getFilePath σ₁ fileKey with
        | some filePath =>
            { state := { σ₁ with media := fsErase filePath σ₁.media }
              trace := [FsEffect.writeData, FsEffect.unlink filePath], ok := true }
        | none => { state := σ₁, trace := [FsEffect.writeData], ok := true }
      else { state := σ₁, trace := [FsEffect.writeData], ok := true }

/-! ### Sync Pull API (`file.controller.ts`) -/

/-- The two HTTP exception classes the controller throws. -/
inductive ApiError
  | notFoundException (msg : String)
  | internalServerErrorException (msg : String)
deriving DecidableEq

/-- The `FileController.downloadFile`: `getFilePath` miss ⇒ 404; otherwise
    `createReadStream(filePath)` — a stream error (e.g. the blob was
    already unlinked) is caught and rethrown as a 500. -/
def downloadFile (σ : FileServiceState) (fileKey : String) :
    Except ApiError Nat :=
  match getFilePath σ fileKey with
  | none =>
      .error (.notFoundException
        ("File with key \"" ++ fileKey ++ "\" not found."))
  | some filePath =>
      match fsLookup filePath σ.media with
      | some c => .ok c
      | none => .error (.internalServerErrorException "Failed to read file from disk.")

/-- Request body of `POST sync/status`; `status = none` models a missing
    field.  All four enum values are non-empty strings, hence truthy. -/
structure StatusUpdateBody where
  fileKey : String
  status : Option FileStatus
deriving DecidableEq

/-- Result of the controller's `updateStatus` endpoint. -/
structure ControllerUpdateResult where
  state : FileServiceState
  trace : List FsEffect
  response : Except ApiError String

/-- The `FileController.updateStatus`: rejects only a falsy `fileKey` or a
    falsy `status` (`!body.fileKey || !body.status`); any provided enum
    value is passed straight to `updateFileStatus`. -/
def updateStatus (σ : FileServiceState) (body : StatusUpdateBody) :
    ControllerUpdateResult :=
  match body.status with
  | none =>
      { state := σ, trace := []
        response := .error (.internalServerErrorException
          "Invalid request body. Missing fileKey or status.") }
  | some st =>
      if body.fileKey = "" then
        { state := σ, trace := []
          response := .error (.internalServerErrorException
            "Invalid request body. Missing fileKey or status.") }
      else
        let r := updateFileStatus σ body.fileKey st
        if r.ok then
          { state := r.state, trace := r.trace
            response := .ok ("Status for file " ++ body.fileKey ++ " updated to status") }
        else
          { state := r.state, trace := r.trace
            response := .error (.notFoundException
              ("File with key \"" ++ body.fileKey ++ "\" not found.")) }

/-! ### Event dedup cache and ingestion pipeline (`feishu.service.ts`) -/

def EVENT_EXPIRY_MS : Nat := 10 * 60 * 1000

/-- The `processedEvents` Set together with its pending `setTimeout`
    deletions: each member carries the absolute time at which its
    scheduled deletion fires. -/
structure DedupCache where
  entries : List (String × Nat)
deriving DecidableEq

/-- Runs every deletion timer due by time `t` (a timer scheduled for
    `e.2` has fired once `e.2 ≤ t`). -/
def evictExpired (t : Nat) (c : DedupCache) : DedupCache :=
  ⟨c.entries.filter (fun e => decide (t < e.2))⟩

/-- The `FeishuService.isEventProcessed` called at time `t`: membership test
    on the Set; on a miss, add the id and schedule its deletion at
    `t + EVENT_EXPIRY_MS`.  A hit does not reschedule anything. -/
def isEventProcessed (t : Nat) (eventId : String) (c : DedupCache) :
    Bool × DedupCache :=
  let c' := evictExpired t c
  if c'.entries.any (fun e => e.1 == eventId) then (true, c')
  else (false, ⟨c'.entries ++ [(eventId, t + EVENT_EXPIRY_MS)]⟩)

/-- Observable interactions of the ingestion pipeline with the outside
    world.  `addFileCall` is the hand-off to `FileService.addFile` that
    the architecture provides for (the vocabulary contains it so that
    its absence from every trace is a statement about the code). -/
inductive PipelineEffect
  | reply (chatId text : String)
  | fetchResource (messageId fileKey resourceType : String)
  | writeTemp (p : Path)
  | addFileCall (sourceFilePath : Path) (originalFileName : String)
deriving DecidableEq

/-- Outcome of `client.im.v1.messageResource.get` + `writeFile`. -/
inductive FetchOutcome
  | ok (content : Nat)
  | notFoundOrExpired
  | otherError (msg : String)
deriving DecidableEq

/-- Whether a pipeline effect is a call into the File Record Store. -/
def PipelineEffect.isStoreCall : PipelineEffect → Bool
  | .addFileCall _ _ => true
  | _ => false

/-- The `FeishuService.processFileMessage`: acknowledge, fetch the resource
    into the temp dir, and report the outcome to the sender.  The method
    has no `FileService` dependency (the constructor injects only
    `ConfigService`), so the store state `σ` passes through untouched
    and no `addFileCall` effect is ever emitted. -/
def processFileMessage (σ : FileServiceState)
    (chat_id message_id fileKey fileName resourceType : String)
    (fetch : FetchOutcome) : FileServiceState × List PipelineEffect :=
  let ack := PipelineEffect.reply chat_id
    ("已接收文件: " ++ fileName ++ "，正在准备传输...")
  match fetch with
  | .ok _ =>
      (σ, [ack, .fetchResource message_id fileKey resourceType,
           .writeTemp (pathJoin TEMP_DIR fileName),
           .reply chat_id ("文件 " ++ fileName ++ " 已成功下载到服务端。")])
  | .notFoundOrExpired =>
      (σ, [ack, .fetchResource message_id fileKey resourceType,
           .reply chat_id ("下载文件 " ++ fileName ++
             " 失败：文件未找到或链接已过期。请尝试重新发送文件。")])
  | .otherError m =>
      (σ, [ack, .fetchResource message_id fileKey resourceType,
           .reply chat_id ("下载文件 " ++ fileName ++ " 失败。错误信息：" ++ m)])

/-- What one delivery of an `im.message.receive_v1` event produced. -/
structure HandlerResult where
  /-- whether the pipeline body ran (was not suppressed as a duplicate) -/
  ran : Bool
  cache : DedupCache
  store : FileServiceState
  effects : List PipelineEffect

/-- The `im.message.receive_v1` handler's file-bearing path: the guard
    `if (event_id && this.isEventProcessed(event_id)) return;` followed
    by the dispatch into `processFileMessage` (the image/media/file
    branches differ only in how key and name are extracted). -/
def receiveMessageHandler (t : Nat) (event_id : String) (c : DedupCache)
    (σ : FileServiceState)
    (chat_id message_id fileKey fileName resourceType : String)
    (fetch : FetchOutcome) : HandlerResult :=
  if event_id = "" then
    let r := processFileMessage σ chat_id message_id fileKey fileName resourceType fetch
    { ran := true, cache := c, store := r.1, effects := r.2 }
  else
    match isEventProcessed t event_id c with
    | (true, c') => { ran := false, cache := c', store := σ, effects := [] }
    | (false, c') =>
        let r := processFileMessage σ chat_id message_id fileKey fileName resourceType fetch
        { ran := true, cache := c', store := r.1, effects := r.2 }

/-! ### Basic lemmas about the embedded operations -/

@[simp]
theorem saveState_files (σ : FileServiceState) : (saveState σ).files = σ.files := by
  unfold saveState; split <;> rfl

@[simp]
theorem saveState_media (σ : FileServiceState) : (saveState σ).media = σ.media := by
  unfold saveState; split <;> rfl

@[simp]
theorem saveState_diskWritable (σ : FileServiceState) :
    (saveState σ).diskWritable = σ.diskWritable := by
  unfold saveState; split <;> rfl

theorem saveState_dataFile_of_writable {σ : FileServiceState}
    (h : σ.diskWritable = true) : (saveState σ).dataFile = some σ.files := by
  simp [saveState, h]

theorem saveState_dataFile_of_unwritable {σ : FileServiceState}
    (h : σ.diskWritable = false) : (saveState σ).dataFile = σ.dataFile := by
  simp [saveState, h]

@[simp]
theorem fsLookup_fsErase_self (p : Path) (l : Blobs) :
    fsLookup p (fsErase p l) = none := by
  induction l with
  | nil => rfl
  | cons e rest ih =>
      by_cases h : e.1 = p
      · simpa [fsErase, h] using ih
      · simpa [fsErase, fsLookup, h] using ih

@[simp]
theorem fsErase_fsErase (p : Path) (l : Blobs) :
    fsErase p (fsErase p l) = fsErase p l := by
  induction l with
  | nil => rfl
  | cons e rest ih =>
      by_cases h : e.1 = p
      · simp [fsErase, h, ih]
      · simp [fsErase, h, ih]

@[simp]
theorem fsLookup_fsWrite_self (p : Path) (c : Nat) (l : Blobs) :
    fsLookup p (fsWrite p c l) = some c := by
  simp [fsWrite, fsLookup]

theorem setStatusFirst_find?_self (l : List FileRecord) (k : String)
    (s : FileStatus) :
    (setStatusFirst l k s).find? (fun f => f.fileKey == k) =
      (l.find? (fun f => f.fileKey == k)).map (fun r => { r with status := s }) := by
  induction l with
  | nil => rfl
  | cons f rest ih =>
      by_cases h : f.fileKey = k
      · simp [setStatusFirst, h, List.find?_cons]
      · simp [setStatusFirst, h, List.find?_cons, ih]

theorem setStatusFirst_idem (l : List FileRecord) (k : String) (s : FileStatus) :
    setStatusFirst (setStatusFirst l k s) k s = setStatusFirst l k s := by
  induction l with
  | nil => rfl
  | cons f rest ih =>
      by_cases h : f.fileKey = k
      · simp [setStatusFirst, h]
      · simp [setStatusFirst, h, ih]

theorem find?_eq_some_of_nodupKeys {l : List FileRecord} {r : FileRecord}
    (hnd : (l.map FileRecord.fileKey).Nodup) (hr : r ∈ l) :
    l.find? (fun f => f.fileKey == r.fileKey) = some r := by
  induction l with
  | nil => cases hr
  | cons f rest ih =>
      rcases List.mem_cons.mp hr with h | h
      · subst h; simp [List.find?_cons]
      · have hne : ¬ f.fileKey = r.fileKey := by
          intro he
          have : r.fileKey ∈ rest.map FileRecord.fileKey :=
            List.mem_map.mpr ⟨r, h, rfl⟩
          rw [List.map_cons, List.nodup_cons] at hnd
          exact hnd.1 (he ▸ this)
        have hnd' : (rest.map FileRecord.fileKey).Nodup := by
          rw [List.map_cons, List.nodup_cons] at hnd
          exact hnd.2
        simp [List.find?_cons, hne, ih hnd' h]

theorem notMem_setStatusFirst {l : List FileRecord} {r : FileRecord}
    {s : FileStatus} (hnd : (l.map FileRecord.fileKey).Nodup) (hr : r ∈ l)
    (hs : r.status ≠ s) : r ∉ setStatusFirst l r.fileKey s := by
  induction l with
  | nil => cases hr
  | cons f rest ih =>
      rw [List.map_cons, List.nodup_cons] at hnd
      rcases List.mem_cons.mp hr with h | h
      · subst h
        simp only [setStatusFirst, if_pos rfl]
        intro hmem
        rcases List.mem_cons.mp hmem with h' | h'
        · exact hs (congrArg FileRecord.status h')
        · exact hnd.1 (List.mem_map.mpr ⟨r, h', rfl⟩)
      · have hne : ¬ f.fileKey = r.fileKey := by
          intro he
          exact hnd.1 (he ▸ List.mem_map.mpr ⟨r, h, rfl⟩)
        simp only [setStatusFirst, if_neg hne]
        intro hmem
        rcases List.mem_cons.mp hmem with h' | h'
        · subst h'; exact hne rfl
        · exact ih hnd.2 h h'

theorem find?_append_of_none {l₁ l₂ : List FileRecord}
    {p : FileRecord → Bool} (h : l₁.find? p = none) :
    (l₁ ++ l₂).find? p = l₂.find? p := by
  induction l₁ with
  | nil => rfl
  | cons f rest ih =>
      by_cases hp : p f
      · rw [List.find?_cons_of_pos _ hp] at h
        cases h
      · rw [List.find?_cons_of_neg _ hp] at h
        rw [List.cons_append, List.find?_cons_of_neg _ hp]
        exact ih h

/-! ### Concrete states used by counterexamples and witnesses -/

/-- An empty store on a writable disk. -/
def σA : FileServiceState :=
  { files := [], dataFile := none, media := [], diskWritable := true }

/-- A single Pending record. -/
def recK1 : FileRecord :=
  { fileKey := "k1", fileName := "a.jpg", status := FileStatus.Pending
    timestamp := 0 }

/-- A store holding `recK1` with its blob present. -/
def σB : FileServiceState :=
  { files := [recK1], dataFile := some [recK1]
    media := [(pathJoin FILE_MEDIA_DIR "a.jpg", 7)], diskWritable := true }

/-- A store where `recK1` was completed and its blob already cleaned. -/
def σC : FileServiceState :=
  { files := [{ recK1 with status := FileStatus.Completed }]
    dataFile := some [{ recK1 with status := FileStatus.Completed }]
    media := [], diskWritable := true }

/-- A store with one staged temp blob, ready for `addFile`. -/
def σW : FileServiceState :=
  { files := [], dataFile := none
    media := [(pathJoin TEMP_DIR "w.jpg", 3)], diskWritable := true }

/-- An empty store with two staged temp blobs. -/
def σD : FileServiceState :=
  { files := [], dataFile := none
    media := [("temp_uploads/x.jpg", 11), ("temp_uploads/y.jpg", 22)]
    diskWritable := true }

/-! ### Claim theorems -/

/-- Claim C1 (code bug): the ingestion pipeline's `processFileMessage`
    never hands the staged blob to the File Record Store — it has no
    `FileService` dependency, performs no `addFile` call, and leaves the
    store (hence the set of Pending records) unchanged for every inbound
    file-bearing event, even when the fetch succeeds. -/
theorem C1_pipeline_never_calls_addFile (σ : FileServiceState)
    (chat_id message_id fileKey fileName resourceType : String)
    (fetch : FetchOutcome) :
    (processFileMessage σ chat_id message_id fileKey fileName resourceType fetch).1 = σ ∧
    ((processFileMessage σ chat_id message_id fileKey fileName resourceType
        fetch).2.filter PipelineEffect.isStoreCall) = [] ∧
    (getPendingFiles (processFileMessage σ chat_id message_id fileKey fileName
        resourceType fetch).1).2 = (getPendingFiles σ).2 := by
  cases fetch <;> simp [processFileMessage, PipelineEffect.isStoreCall]

/-- Claim C5 (amended): when the blob move fails, `addFile` creates no
    record and performs no durable rewrite, but it does not fail
    observably — the rename error is caught and logged, and the call
    resolves normally (`.ok ()`). -/
theorem C5_addFile_move_failure (σ : FileServiceState) (src : Path)
    (name key : String) (now : Nat)
    (h : fsLookup src σ.media = none) :
    (addFile σ src name key now).state = σ ∧
    (addFile σ src name key now).outcome = Except.ok () ∧
    (addFile σ src name key now).trace =
      [FsEffect.rename src
        (pathJoin FILE_MEDIA_DIR (if name = "" then key else name))] := by
  simp [addFile, fsRename, h]

/-- Claim C5 counterexample to the claim as stated: a concrete `addFile`
    call whose move fails still resolves successfully (the caller
    observes a normal completion, not a failure), with the store left
    exactly as it was. -/
theorem C5_counterexample :
    (addFile σA "temp_uploads/a.jpg" "a.jpg" "k1" 0).outcome = Except.ok () ∧
    (addFile σA "temp_uploads/a.jpg" "a.jpg" "k1" 0).state = σA :=
  ⟨rfl, rfl⟩

/-- Witness for `C5_addFile_move_failure` at a concrete input. -/
theorem C5_witness :
    (addFile σA "temp_uploads/b.jpg" "b.jpg" "k2" 1).state = σA ∧
    (addFile σA "temp_uploads/b.jpg" "b.jpg" "k2" 1).outcome = Except.ok () ∧
    (addFile σA "temp_uploads/b.jpg" "b.jpg" "k2" 1).trace =
      [FsEffect.rename "temp_uploads/b.jpg"
        (pathJoin FILE_MEDIA_DIR (if "b.jpg" = "" then "k2" else "b.jpg"))] :=
  C5_addFile_move_failure σA "temp_uploads/b.jpg" "b.jpg" "k2" 1 rfl

/-- Claim C6 (amended): within `addFile` the rename into managed storage
    precedes the durable write, but within `updateFileStatus` with a
    terminal status the durable write comes first and the blob deletion
    second. -/
theorem C6_amended_ordering :
    (∀ (σ : FileServiceState) (src : Path) (name key : String) (now c : Nat),
      fsLookup src σ.media = some c →
      (addFile σ src name key now).trace =
        [FsEffect.rename src
          (pathJoin FILE_MEDIA_DIR (if name = "" then key else name)),
         FsEffect.writeData]) ∧
    (∀ (σ : FileServiceState) (k : String) (s : FileStatus) (r : FileRecord),
      σ.files.find? (fun f => f.fileKey == k) = some r →
      s = FileStatus.Completed ∨ s = FileStatus.Failed →
      (updateFileStatus σ k s).trace =
        [FsEffect.writeData,
         FsEffect.unlink (pathJoin FILE_MEDIA_DIR r.fileName)]) := by
  constructor
  · intro σ src name key now c h
    simp [addFile, fsRename, h]
  · intro σ k s r hf hs
    rcases hs with hs | hs <;> subst hs <;>
      simp [updateFileStatus, hf, getFilePath, setStatusFirst_find?_self]

/-- Claim C6 counterexample to the claim as stated: a concrete terminal
    `updateFileStatus` call attempts the durable rewrite first and the
    blob deletion second, so the deletion does not precede the durable
    write. -/
theorem C6_counterexample :
    (updateFileStatus σB "k1" FileStatus.Completed).trace =
      [FsEffect.writeData, FsEffect.unlink (pathJoin FILE_MEDIA_DIR "a.jpg")] :=
  rfl

/-- Witness for `C6_amended_ordering` at concrete inputs. -/
theorem C6_witness :
    (addFile σW (pathJoin TEMP_DIR "w.jpg") "w.jpg" "k9" 2).trace =
      [FsEffect.rename (pathJoin TEMP_DIR "w.jpg")
        (pathJoin FILE_MEDIA_DIR (if "w.jpg" = "" then "k9" else "w.jpg")),
       FsEffect.writeData] ∧
    (updateFileStatus σB "k1" FileStatus.Failed).trace =
      [FsEffect.writeData,
       FsEffect.unlink (pathJoin FILE_MEDIA_DIR recK1.fileName)] :=
  ⟨C6_amended_ordering.1 σW (pathJoin TEMP_DIR "w.jpg") "w.jpg" "k9" 2 3 rfl,
   C6_amended_ordering.2 σB "k1" FileStatus.Failed recK1 rfl (Or.inr rfl)⟩

/-- Claim C10: if the durable rewrite fails during `updateFileStatus`, the
    error is swallowed — the in-memory record still carries the new
    status, terminal-status blob cleanup still proceeds, the call still
    returns success, and the on-disk snapshot is left stale. -/
theorem C10_saveState_failure_swallowed (σ : FileServiceState) (k : String)
    (s : FileStatus) (r : FileRecord)
    (hw : σ.diskWritable = false)
    (hf : σ.files.find? (fun f => f.fileKey == k) = some r)
    (hs : s = FileStatus.Completed ∨ s = FileStatus.Failed) :
    (updateFileStatus σ k s).ok = true ∧
    (updateFileStatus σ k s).state.dataFile = σ.dataFile ∧
    (updateFileStatus σ k s).state.files.find? (fun f => f.fileKey == k) =
      some { r with status := s } ∧
    fsLookup (pathJoin FILE_MEDIA_DIR r.fileName)
      (updateFileStatus σ k s).state.media = none := by
  rcases hs with hs | hs <;> subst hs <;>
    simp [updateFileStatus, hf, getFilePath, setStatusFirst_find?_self,
      saveState, hw]

/-- Witness for `C10_saveState_failure_swallowed` at a concrete input. -/
theorem C10_witness :
    (updateFileStatus { σB with diskWritable := false } "k1"
        FileStatus.Completed).ok = true ∧
    (updateFileStatus { σB with diskWritable := false } "k1"
        FileStatus.Completed).state.dataFile =
      { σB with diskWritable := false }.dataFile ∧
    (updateFileStatus { σB with diskWritable := false } "k1"
        FileStatus.Completed).state.files.find?
        (fun f => f.fileKey == "k1") =
      some { recK1 with status := FileStatus.Completed } ∧
    fsLookup (pathJoin FILE_MEDIA_DIR recK1.fileName)
      (updateFileStatus { σB with diskWritable := false } "k1"
        FileStatus.Completed).state.media = none :=
  C10_saveState_failure_swallowed { σB with diskWritable := false } "k1"
    FileStatus.Completed recK1 rfl rfl (Or.inl rfl)

/-- Claim C3 (amended): the status-update endpoint rejects only a falsy
    `fileKey` or a missing `status`; any provided enum value — including
    `Pending` and `Expired` — is applied verbatim to the record, so a
    record can be transitioned to `Expired` through this operation. -/
theorem C3_any_truthy_status_applied :
    (∀ (σ : FileServiceState) (k : String) (st : FileStatus) (r : FileRecord),
      k ≠ "" →
      σ.files.find? (fun f => f.fileKey == k) = some r →
      (updateStatus σ { fileKey := k, status := some st }).state.files.find?
          (fun f => f.fileKey == k) = some { r with status := st } ∧
      (updateStatus σ { fileKey := k, status := some st }).response =
        Except.ok ("Status for file " ++ k ++ " updated to status")) ∧
    (∀ (σ : FileServiceState) (k : String),
      (updateStatus σ { fileKey := k, status := none }).state = σ ∧
      (updateStatus σ { fileKey := k, status := none }).response =
        Except.error (ApiError.internalServerErrorException
          "Invalid request body. Missing fileKey or status.")) ∧
    (∀ (σ : FileServiceState) (st : FileStatus),
      (updateStatus σ { fileKey := "", status := some st }).state = σ ∧
      (updateStatus σ { fileKey := "", status := some st }).response =
        Except.error (ApiError.internalServerErrorException
          "Invalid request body. Missing fileKey or status.")) := by
  refine ⟨?_, ?_, ?_⟩
  · intro σ k st r hk hf
    cases st <;>
      simp [updateStatus, hk, updateFileStatus, hf, getFilePath,
        setStatusFirst_find?_self]
  · intro σ k
    exact ⟨rfl, rfl⟩
  · intro σ st
    simp [updateStatus]

/-- Claim C3 counterexample to the claim as stated: a concrete request
    carrying status `Expired` is accepted and transitions the record to
    `Expired`. -/
theorem C3_counterexample :
    (updateStatus σB { fileKey := "k1", status := some FileStatus.Expired }).state.files =
      [{ recK1 with status := FileStatus.Expired }] ∧
    (updateStatus σB { fileKey := "k1", status := some FileStatus.Expired }).response =
      Except.ok ("Status for file " ++ "k1" ++ " updated to status") :=
  ⟨rfl, rfl⟩

/-- Witness for `C3_any_truthy_status_applied` at a concrete input. -/
theorem C3_witness :
    (updateStatus σB { fileKey := "k1", status := some FileStatus.Failed }).state.files.find?
        (fun f => f.fileKey == "k1") =
      some { recK1 with status := FileStatus.Failed } ∧
    (updateStatus σB { fileKey := "k1", status := some FileStatus.Failed }).response =
      Except.ok ("Status for file " ++ "k1" ++ " updated to status") :=
  C3_any_truthy_status_applied.1 σB "k1" FileStatus.Failed recK1 (by decide) rfl

/-- Claim C4 (amended): the download endpoint answers not-found only when
    the fileKey matches no record; for a known key whose blob was
    already cleaned up it answers a generic internal server failure. -/
theorem C4_download_error_classes :
    (∀ (σ : FileServiceState) (k : String),
      getFilePath σ k = none →
      downloadFile σ k = Except.error (ApiError.notFoundException
        ("File with key \"" ++ k ++ "\" not found."))) ∧
    (∀ (σ : FileServiceState) (k : String) (p : Path),
      getFilePath σ k = some p →
      fsLookup p σ.media = none →
      downloadFile σ k = Except.error
        (ApiError.internalServerErrorException "Failed to read file from disk.")) := by
  constructor
  · intro σ k h
    simp [downloadFile, h]
  · intro σ k p h₁ h₂
    simp [downloadFile, h₁, h₂]

/-- Claim C4 counterexample to the claim as stated: downloading a key
    whose blob was already cleaned after `Completed` yields the internal
    server error, not the not-found error class. -/
theorem C4_counterexample :
    downloadFile σC "k1" =
      Except.error (ApiError.internalServerErrorException
        "Failed to read file from disk.") :=
  rfl

/-- Witness for `C4_download_error_classes` at concrete inputs. -/
theorem C4_witness :
    downloadFile σA "nope" = Except.error (ApiError.notFoundException
      ("File with key \"" ++ "nope" ++ "\" not found.")) ∧
    downloadFile σC "k1" = Except.error
      (ApiError.internalServerErrorException "Failed to read file from disk.") :=
  ⟨C4_download_error_classes.1 σA "nope" rfl,
   C4_download_error_classes.2 σC "k1" (pathJoin FILE_MEDIA_DIR "a.jpg") rfl rfl⟩

/-- Closed form of a successful terminal `updateFileStatus` call. -/
theorem updateFileStatus_terminal_state (σ : FileServiceState) (k : String)
    (s : FileStatus) (r : FileRecord)
    (hf : σ.files.find? (fun f => f.fileKey == k) = some r)
    (hs : s = FileStatus.Completed ∨ s = FileStatus.Failed) :
    updateFileStatus σ k s =
      { state :=
          { files := setStatusFirst σ.files k s
            dataFile := if σ.diskWritable then some (setStatusFirst σ.files k s)
                        else σ.dataFile
            media := fsErase (pathJoin FILE_MEDIA_DIR r.fileName) σ.media
            diskWritable := σ.diskWritable }
        trace := [FsEffect.writeData,
                  FsEffect.unlink (pathJoin FILE_MEDIA_DIR r.fileName)]
        ok := true } := by
  rcases hs with hs | hs <;> subst hs <;>
    by_cases hw : σ.diskWritable <;>
      simp [updateFileStatus, hf, getFilePath, setStatusFirst_find?_self,
        saveState, hw]

/-- Components of a successful `addFile` call: the appended Pending
    record and the moved blob. -/
theorem addFile_success_parts (σ : FileServiceState) (src : Path)
    (n key : String) (now c : Nat)
    (h : fsLookup src σ.media = some c) (hn : n ≠ "") :
    (addFile σ src n key now).state.files =
      σ.files ++ [{ fileKey := key, fileName := n
                    status := FileStatus.Pending, timestamp := now }] ∧
    (addFile σ src n key now).state.media =
      fsWrite (pathJoin FILE_MEDIA_DIR n) c (fsErase src σ.media) := by
  constructor <;> simp [addFile, fsRename, h, hn]

/-- Claim C2: after a successful `updateStatus(r.fileKey, Completed)` on a
    Pending record `r` (keys unique, durable write succeeding), the
    record carries status `Completed`, the blob for `r.fileKey` is gone,
    and `r` no longer appears in `getPending()`. -/
theorem C2_terminal_transition (σ : FileServiceState) (r : FileRecord)
    (hmem : r ∈ σ.files)
    (hp : r.status = FileStatus.Pending)
    (hnd : (σ.files.map FileRecord.fileKey).Nodup)
    (hw : σ.diskWritable = true) :
    (updateFileStatus σ r.fileKey FileStatus.Completed).ok = true ∧
    (updateFileStatus σ r.fileKey FileStatus.Completed).state.files.find?
        (fun f => f.fileKey == r.fileKey) =
      some { r with status := FileStatus.Completed } ∧
    fsLookup (pathJoin FILE_MEDIA_DIR r.fileName)
      (updateFileStatus σ r.fileKey FileStatus.Completed).state.media = none ∧
    r ∉ (getPendingFiles (updateFileStatus σ r.fileKey FileStatus.Completed).state).2 := by
  have hf : σ.files.find? (fun f => f.fileKey == r.fileKey) = some r :=
    find?_eq_some_of_nodupKeys hnd hmem
  have hstate := updateFileStatus_terminal_state σ r.fileKey
    FileStatus.Completed r hf (Or.inl rfl)
  have hnot : r ∉ setStatusFirst σ.files r.fileKey FileStatus.Completed := by
    refine notMem_setStatusFirst hnd hmem ?_
    rw [hp]
    intro hcon
    cases hcon
  refine ⟨by rw [hstate], ?_, ?_, ?_⟩
  · rw [hstate]
    simp [setStatusFirst_find?_self, hf]
  · rw [hstate]
    simp
  · rw [hstate]
    simp only [getPendingFiles, loadState, hw, if_true]
    intro hr
    exact hnot (List.mem_filter.mp hr).1

/-- Witness for `C2_terminal_transition` at a concrete input. -/
theorem C2_witness :
    (updateFileStatus σB recK1.fileKey FileStatus.Completed).ok = true ∧
    (updateFileStatus σB recK1.fileKey FileStatus.Completed).state.files.find?
        (fun f => f.fileKey == recK1.fileKey) =
      some { recK1 with status := FileStatus.Completed } ∧
    fsLookup (pathJoin FILE_MEDIA_DIR recK1.fileName)
      (updateFileStatus σB recK1.fileKey FileStatus.Completed).state.media = none ∧
    recK1 ∉ (getPendingFiles
      (updateFileStatus σB recK1.fileKey FileStatus.Completed).state).2 :=
  C2_terminal_transition σB recK1 (by simp [σB]) rfl (by simp [σB, recK1]) rfl

/-- Claim C8: a second terminal `updateFileStatus` call with the same key
    and status succeeds again and is a complete no-op on the state — in
    particular the second blob cleanup is a no-op. -/
theorem C8_updateStatus_idempotent (σ : FileServiceState) (k : String)
    (s : FileStatus) (r : FileRecord)
    (hf : σ.files.find? (fun f => f.fileKey == k) = some r)
    (hs : s = FileStatus.Completed ∨ s = FileStatus.Failed) :
    (updateFileStatus σ k s).ok = true ∧
    (updateFileStatus (updateFileStatus σ k s).state k s).ok = true ∧
    (updateFileStatus (updateFileStatus σ k s).state k s).state =
      (updateFileStatus σ k s).state ∧
    (updateFileStatus (updateFileStatus σ k s).state k s).state.media =
      (updateFileStatus σ k s).state.media := by
  have h1 := updateFileStatus_terminal_state σ k s r hf hs
  have hf2 : (updateFileStatus σ k s).state.files.find?
      (fun f => f.fileKey == k) = some { r with status := s } := by
    rw [h1]
    simp [setStatusFirst_find?_self, hf]
  have h2 := updateFileStatus_terminal_state
    (updateFileStatus σ k s).state k s { r with status := s } hf2 hs
  refine ⟨by rw [h1], by rw [h2], ?_, ?_⟩
  · rw [h2, h1]
    by_cases hw : σ.diskWritable <;>
      simp [setStatusFirst_idem, fsErase_fsErase, hw]
  · rw [h2, h1]
    simp [setStatusFirst_idem, fsErase_fsErase]

/-- Witness for `C8_updateStatus_idempotent` at a concrete input. -/
theorem C8_witness :
    (updateFileStatus σB "k1" FileStatus.Completed).ok = true ∧
    (updateFileStatus (updateFileStatus σB "k1" FileStatus.Completed).state
        "k1" FileStatus.Completed).ok = true ∧
    (updateFileStatus (updateFileStatus σB "k1" FileStatus.Completed).state
        "k1" FileStatus.Completed).state =
      (updateFileStatus σB "k1" FileStatus.Completed).state ∧
    (updateFileStatus (updateFileStatus σB "k1" FileStatus.Completed).state
        "k1" FileStatus.Completed).state.media =
      (updateFileStatus σB "k1" FileStatus.Completed).state.media :=
  C8_updateStatus_idempotent σB "k1" FileStatus.Completed recK1 rfl (Or.inl rfl)

/-- Claim C9: `getFilePath` depends only on the matched record's
    `fileName`, so records sharing a `fileName` share their blob path;
    two successful `addFile` calls that declare the same non-empty name
    produce two distinct Pending records whose `getFilePath` coincides,
    and the single blob at that path holds the second call's bytes. -/
theorem C9_filePath_depends_on_fileName_only :
    (∀ (σ : FileServiceState) (k₁ k₂ : String) (r₁ r₂ : FileRecord),
      σ.files.find? (fun f => f.fileKey == k₁) = some r₁ →
      σ.files.find? (fun f => f.fileKey == k₂) = some r₂ →
      r₁.fileName = r₂.fileName →
      getFilePath σ k₁ = getFilePath σ k₂) ∧
    (∀ (σ : FileServiceState) (src₁ src₂ : Path) (n k₁ k₂ : String)
        (now₁ now₂ c₁ c₂ : Nat),
      n ≠ "" → k₁ ≠ k₂ →
      σ.files.find? (fun f => f.fileKey == k₁) = none →
      σ.files.find? (fun f => f.fileKey == k₂) = none →
      fsLookup src₁ σ.media = some c₁ →
      fsLookup src₂ (addFile σ src₁ n k₁ now₁).state.media = some c₂ →
      (addFile (addFile σ src₁ n k₁ now₁).state src₂ n k₂ now₂).state.files.find?
          (fun f => f.fileKey == k₁) =
        some { fileKey := k₁, fileName := n, status := FileStatus.Pending
               timestamp := now₁ } ∧
      (addFile (addFile σ src₁ n k₁ now₁).state src₂ n k₂ now₂).state.files.find?
          (fun f => f.fileKey == k₂) =
        some { fileKey := k₂, fileName := n, status := FileStatus.Pending
               timestamp := now₂ } ∧
      getFilePath (addFile (addFile σ src₁ n k₁ now₁).state src₂ n k₂ now₂).state k₁ =
        some (pathJoin FILE_MEDIA_DIR n) ∧
      getFilePath (addFile (addFile σ src₁ n k₁ now₁).state src₂ n k₂ now₂).state k₂ =
        some (pathJoin FILE_MEDIA_DIR n) ∧
      fsLookup (pathJoin FILE_MEDIA_DIR n)
        (addFile (addFile σ src₁ n k₁ now₁).state src₂ n k₂ now₂).state.media =
        some c₂) := by
  constructor
  · intro σ k₁ k₂ r₁ r₂ h₁ h₂ hname
    simp [getFilePath, h₁, h₂, hname]
  · intro σ src₁ src₂ n k₁ k₂ now₁ now₂ c₁ c₂ hn hk h₁ h₂ hb₁ hb₂
    obtain ⟨A₁, A₂⟩ := addFile_success_parts σ src₁ n k₁ now₁ c₁ hb₁ hn
    obtain ⟨B₁, B₂⟩ := addFile_success_parts (addFile σ src₁ n k₁ now₁).state
      src₂ n k₂ now₂ c₂ hb₂ hn
    have hfind₁ :
        ((σ.files ++ [({ fileKey := k₁, fileName := n
                         status := FileStatus.Pending
                         timestamp := now₁ } : FileRecord)]) ++
          [({ fileKey := k₂, fileName := n
              status := FileStatus.Pending
              timestamp := now₂ } : FileRecord)]).find?
          (fun f => f.fileKey == k₁) =
        some { fileKey := k₁, fileName := n, status := FileStatus.Pending
               timestamp := now₁ } := by
      rw [List.append_assoc, find?_append_of_none h₁]
      simp
    have hfind₂ :
        ((σ.files ++ [({ fileKey := k₁, fileName := n
                         status := FileStatus.Pending
                         timestamp := now₁ } : FileRecord)]) ++
          [({ fileKey := k₂, fileName := n
              status := FileStatus.Pending
              timestamp := now₂ } : FileRecord)]).find?
          (fun f => f.fileKey == k₂) =
        some { fileKey := k₂, fileName := n, status := FileStatus.Pending
               timestamp := now₂ } := by
      rw [List.append_assoc, find?_append_of_none h₂]
      simp [hk]
    refine ⟨?_, ?_, ?_, ?_, ?_⟩
    · rw [B₁, A₁]
      exact hfind₁
    · rw [B₁, A₁]
      exact hfind₂
    · unfold getFilePath
      rw [B₁, A₁, hfind₁]
      rfl
    · unfold getFilePath
      rw [B₁, A₁, hfind₂]
      rfl
    · rw [B₂]
      simp

/-- Witness for `C9_filePath_depends_on_fileName_only` at concrete
    inputs. -/
theorem C9_witness :
    (getFilePath σB "k1" = getFilePath σB "k1") ∧
    ((addFile (addFile σD "temp_uploads/x.jpg" "p.jpg" "ka" 0).state
        "temp_uploads/y.jpg" "p.jpg" "kb" 1).state.files.find?
        (fun f => f.fileKey == "ka") =
      some { fileKey := "ka", fileName := "p.jpg"
             status := FileStatus.Pending, timestamp := 0 } ∧
    (addFile (addFile σD "temp_uploads/x.jpg" "p.jpg" "ka" 0).state
        "temp_uploads/y.jpg" "p.jpg" "kb" 1).state.files.find?
        (fun f => f.fileKey == "kb") =
      some { fileKey := "kb", fileName := "p.jpg"
             status := FileStatus.Pending, timestamp := 1 } ∧
    getFilePath (addFile (addFile σD "temp_uploads/x.jpg" "p.jpg" "ka" 0).state
        "temp_uploads/y.jpg" "p.jpg" "kb" 1).state "ka" =
      some (pathJoin FILE_MEDIA_DIR "p.jpg") ∧
    getFilePath (addFile (addFile σD "temp_uploads/x.jpg" "p.jpg" "ka" 0).state
        "temp_uploads/y.jpg" "p.jpg" "kb" 1).state "kb" =
      some (pathJoin FILE_MEDIA_DIR "p.jpg") ∧
    fsLookup (pathJoin FILE_MEDIA_DIR "p.jpg")
      (addFile (addFile σD "temp_uploads/x.jpg" "p.jpg" "ka" 0).state
        "temp_uploads/y.jpg" "p.jpg" "kb" 1).state.media = some 22) :=
  ⟨C9_filePath_depends_on_fileName_only.1 σB "k1" "k1" recK1 recK1 rfl rfl rfl,
   C9_filePath_depends_on_fileName_only.2 σD "temp_uploads/x.jpg"
     "temp_uploads/y.jpg" "p.jpg" "ka" "kb" 0 1 11 22 (by decide) (by decide)
     rfl rfl rfl rfl⟩

/-- If every cache entry for `id` has expired by `t`, the eviction at
    `t` leaves no entry for `id`. -/
theorem evict_any_id_false {c : DedupCache} {id : String} {t : Nat}
    (h : ∀ e ∈ c.entries, e.1 = id → e.2 ≤ t) :
    ((evictExpired t c).entries.any (fun e => e.1 == id)) = false := by
  rw [Bool.eq_false_iff]
  intro hany
  rw [List.any_eq_true] at hany
  obtain ⟨e, he, hid⟩ := hany
  have hmem := List.mem_filter.mp he
  have hle := h e hmem.1 (by simpa using hid)
  have hlt : t < e.2 := by simpa using hmem.2
  omega

/-- Filtering cannot introduce an entry for `id`. -/
theorem any_id_false_filter {l : List (String × Nat)} {id : String}
    (h : l.any (fun e => e.1 == id) = false) (p : String × Nat → Bool) :
    (l.filter p).any (fun e => e.1 == id) = false := by
  rw [Bool.eq_false_iff] at h ⊢
  intro hany
  apply h
  rw [List.any_eq_true] at hany ⊢
  obtain ⟨e, he, hid⟩ := hany
  exact ⟨e, (List.mem_filter.mp he).1, hid⟩

/-- A list with no entry for `id` filters to nothing on `id`. -/
theorem filter_id_nil {l : List (String × Nat)} {id : String}
    (h : l.any (fun e => e.1 == id) = false) :
    l.filter (fun e => e.1 == id) = [] := by
  rw [List.filter_eq_nil_iff]
  intro e he
  rw [Bool.eq_false_iff] at h
  intro hid
  exact h (List.any_eq_true.mpr ⟨e, he, hid⟩)

/-- Claim C7: with no live cache entry for a non-empty `eventId` at `t0`,
    the event handler runs the pipeline at `t0`; a redelivery at
    `t1 < t0 + EVENT_EXPIRY_MS` is suppressed with no pipeline effects
    and without resetting the entry's expiry (it still fires at
    `t0 + EVENT_EXPIRY_MS`); a redelivery at any `t2 ≥ t0 +
    EVENT_EXPIRY_MS` runs the pipeline again. -/
theorem C7_dedup_window (t0 t1 t2 : Nat) (id : String) (c : DedupCache)
    (σ : FileServiceState) (ch m fk fn rt : String) (fetch : FetchOutcome)
    (hid : ¬ id = "")
    (hstale : ∀ e ∈ c.entries, e.1 = id → e.2 ≤ t0)
    (h1 : t1 < t0 + EVENT_EXPIRY_MS)
    (h2 : t0 + EVENT_EXPIRY_MS ≤ t2) :
    (receiveMessageHandler t0 id c σ ch m fk fn rt fetch).ran = true ∧
    (receiveMessageHandler t1 id
        (receiveMessageHandler t0 id c σ ch m fk fn rt fetch).cache
        (receiveMessageHandler t0 id c σ ch m fk fn rt fetch).store
        ch m fk fn rt fetch).ran = false ∧
    (receiveMessageHandler t1 id
        (receiveMessageHandler t0 id c σ ch m fk fn rt fetch).cache
        (receiveMessageHandler t0 id c σ ch m fk fn rt fetch).store
        ch m fk fn rt fetch).effects = [] ∧
    ((receiveMessageHandler t1 id
        (receiveMessageHandler t0 id c σ ch m fk fn rt fetch).cache
        (receiveMessageHandler t0 id c σ ch m fk fn rt fetch).store
        ch m fk fn rt fetch).cache.entries.filter (fun e => e.1 == id)) =
      [(id, t0 + EVENT_EXPIRY_MS)] ∧
    (receiveMessageHandler t2 id
        (receiveMessageHandler t1 id
          (receiveMessageHandler t0 id c σ ch m fk fn rt fetch).cache
          (receiveMessageHandler t0 id c σ ch m fk fn rt fetch).store
          ch m fk fn rt fetch).cache
        (receiveMessageHandler t1 id
          (receiveMessageHandler t0 id c σ ch m fk fn rt fetch).cache
          (receiveMessageHandler t0 id c σ ch m fk fn rt fetch).store
          ch m fk fn rt fetch).store
        ch m fk fn rt fetch).ran = true := by
  have hany0 := evict_any_id_false hstale
  have hproc0 : isEventProcessed t0 id c =
      (false, ⟨(evictExpired t0 c).entries ++ [(id, t0 + EVENT_EXPIRY_MS)]⟩) := by
    simp [isEventProcessed, hany0]
  have hstep0 : receiveMessageHandler t0 id c σ ch m fk fn rt fetch =
      { ran := true
        cache := ⟨(evictExpired t0 c).entries ++ [(id, t0 + EVENT_EXPIRY_MS)]⟩
        store := (processFileMessage σ ch m fk fn rt fetch).1
        effects := (processFileMessage σ ch m fk fn rt fetch).2 } := by
    simp [receiveMessageHandler, hid, hproc0]
  have hproc1 : isEventProcessed t1 id
      ⟨(evictExpired t0 c).entries ++ [(id, t0 + EVENT_EXPIRY_MS)]⟩ =
      (true, ⟨(evictExpired t0 c).entries.filter (fun e => decide (t1 < e.2)) ++
        [(id, t0 + EVENT_EXPIRY_MS)]⟩) := by
    simp [isEventProcessed, evictExpired, List.filter_append, List.any_append, h1]
  have hstep1 : ∀ σ' : FileServiceState,
      receiveMessageHandler t1 id
        ⟨(evictExpired t0 c).entries ++ [(id, t0 + EVENT_EXPIRY_MS)]⟩
        σ' ch m fk fn rt fetch =
      { ran := false
        cache := ⟨(evictExpired t0 c).entries.filter (fun e => decide (t1 < e.2)) ++
          [(id, t0 + EVENT_EXPIRY_MS)]⟩
        store := σ', effects := [] } := by
    intro σ'
    simp [receiveMessageHandler, hid, hproc1]
  have hE1noid :
      ((evictExpired t0 c).entries.filter (fun e => decide (t1 < e.2))).any
        (fun e => e.1 == id) = false :=
    any_id_false_filter hany0 _
  have hfilterid :
      (((evictExpired t0 c).entries.filter (fun e => decide (t1 < e.2)) ++
        [(id, t0 + EVENT_EXPIRY_MS)]).filter (fun e => e.1 == id)) =
      [(id, t0 + EVENT_EXPIRY_MS)] := by
    rw [List.filter_append, filter_id_nil hE1noid]
    simp
  have hdrop : ¬ (t2 < t0 + EVENT_EXPIRY_MS) := by omega
  have hany2 :
      ((evictExpired t2
        ⟨(evictExpired t0 c).entries.filter (fun e => decide (t1 < e.2)) ++
          [(id, t0 + EVENT_EXPIRY_MS)]⟩).entries.any (fun e => e.1 == id)) = false := by
    have h' := any_id_false_filter hE1noid (fun e => decide (t2 < e.2))
    show ((((evictExpired t0 c).entries.filter (fun e => decide (t1 < e.2)) ++
        [(id, t0 + EVENT_EXPIRY_MS)]).filter (fun e => decide (t2 < e.2))).any
        (fun e => e.1 == id)) = false
    rw [List.filter_append]
    have hsing : ([(id, t0 + EVENT_EXPIRY_MS)].filter
        (fun e => decide (t2 < e.2))) = ([] : List (String × Nat)) := by
      simp [hdrop]
    rw [hsing, List.append_nil]
    exact h'
  have hproc2 : isEventProcessed t2 id
      ⟨(evictExpired t0 c).entries.filter (fun e => decide (t1 < e.2)) ++
        [(id, t0 + EVENT_EXPIRY_MS)]⟩ =
      (false, ⟨(evictExpired t2
        ⟨(evictExpired t0 c).entries.filter (fun e => decide (t1 < e.2)) ++
          [(id, t0 + EVENT_EXPIRY_MS)]⟩).entries ++
        [(id, t2 + EVENT_EXPIRY_MS)]⟩) := by
    simp [isEventProcessed, hany2]
  have hstep2 : ∀ σ'' : FileServiceState,
      (receiveMessageHandler t2 id
        ⟨(evictExpired t0 c).entries.filter (fun e => decide (t1 < e.2)) ++
          [(id, t0 + EVENT_EXPIRY_MS)]⟩ σ'' ch m fk fn rt fetch).ran = true := by
    intro σ''
    simp [receiveMessageHandler, hid, hproc2]
  refine ⟨?_, ?_, ?_, ?_, ?_⟩ <;> simp only [hstep0, hstep1]
  · exact hfilterid
  · exact hstep2 _

/-- Witness for `C7_dedup_window` at concrete inputs. -/
theorem C7_witness :
    (receiveMessageHandler 0 "e1" ⟨[]⟩ σA "c" "m" "f" "n" "image"
      (FetchOutcome.ok 5)).ran = true ∧
    (receiveMessageHandler 1 "e1"
        (receiveMessageHandler 0 "e1" ⟨[]⟩ σA "c" "m" "f" "n" "image"
          (FetchOutcome.ok 5)).cache
        (receiveMessageHandler 0 "e1" ⟨[]⟩ σA "c" "m" "f" "n" "image"
          (FetchOutcome.ok 5)).store
        "c" "m" "f" "n" "image" (FetchOutcome.ok 5)).ran = false ∧
    (receiveMessageHandler 1 "e1"
        (receiveMessageHandler 0 "e1" ⟨[]⟩ σA "c" "m" "f" "n" "image"
          (FetchOutcome.ok 5)).cache
        (receiveMessageHandler 0 "e1" ⟨[]⟩ σA "c" "m" "f" "n" "image"
          (FetchOutcome.ok 5)).store
        "c" "m" "f" "n" "image" (FetchOutcome.ok 5)).effects = [] ∧
    ((receiveMessageHandler 1 "e1"
        (receiveMessageHandler 0 "e1" ⟨[]⟩ σA "c" "m" "f" "n" "image"
          (FetchOutcome.ok 5)).cache
        (receiveMessageHandler 0 "e1" ⟨[]⟩ σA "c" "m" "f" "n" "image"
          (FetchOutcome.ok 5)).store
        "c" "m" "f" "n" "image" (FetchOutcome.ok 5)).cache.entries.filter
        (fun e => e.1 == "e1")) = [("e1", 0 + EVENT_EXPIRY_MS)] ∧
    (receiveMessageHandler EVENT_EXPIRY_MS "e1"
        (receiveMessageHandler 1 "e1"
          (receiveMessageHandler 0 "e1" ⟨[]⟩ σA "c" "m" "f" "n" "image"
            (FetchOutcome.ok 5)).cache
          (receiveMessageHandler 0 "e1" ⟨[]⟩ σA "c" "m" "f" "n" "image"
            (FetchOutcome.ok 5)).store
          "c" "m" "f" "n" "image" (FetchOutcome.ok 5)).cache
        (receiveMessageHandler 1 "e1"
          (receiveMessageHandler 0 "e1" ⟨[]⟩ σA "c" "m" "f" "n" "image"
            (FetchOutcome.ok 5)).cache
          (receiveMessageHandler 0 "e1" ⟨[]⟩ σA "c" "m" "f" "n" "image"
            (FetchOutcome.ok 5)).store
          "c" "m" "f" "n" "image" (FetchOutcome.ok 5)).store
        "c" "m" "f" "n" "image" (FetchOutcome.ok 5)).ran = true :=
  C7_dedup_window 0 1 EVENT_EXPIRY_MS "e1" ⟨[]⟩ σA "c" "m" "f" "n" "image"
    (FetchOutcome.ok 5) (by decide) (by intro e he; cases he)
    (by simp [EVENT_EXPIRY_MS]) (by simp)

end PixelSync
